import Mathlib

/-
Shallow embedding of src/app.py (a Flask CRUD service over one SQLite table).

The games table is a list of rows; each handler of app.py becomes a pure
function from the table state (and, for POST, the parsed JSON request body)
to a pair of an HTTP outcome and the table state after the request.

HTTP outcomes:
  HResult.ok st b  - a normal response (Flask gives status 200 to a returned
                     string or dict),
  HResult.notFound - Games.query.get_or_404 aborted with HTTP 404,
  HResult.serverError - an unhandled exception (KeyError on a missing body
                     key, or an IntegrityError from the UNIQUE / NOT NULL
                     constraints at commit), surfaced by Flask as HTTP 500.

The SQLite id column is an INTEGER PRIMARY KEY without AUTOINCREMENT: a new
row receives max existing rowid + 1 (modelled by freshId).
-/

namespace SimpleAPI

/-- A row of the games table: class Games of app.py.
id is the integer primary key; name is String(80) unique and NOT NULL;
description is String(150) and nullable, hence an Option. -/
structure Games where
  id : Nat
  name : String
  description : Option String
deriving DecidableEq, Repr

/-- The state of the games table. -/
abbrev DB := List Games

/-- A JSON value of the kinds the service stores in a column:
a string or null (description is a nullable string column). -/
inductive JStr where
  | null : JStr
  | s (v : String) : JStr
deriving DecidableEq, Repr

/-- The parsed JSON request body of POST /games, as the handler reads it:
each field is present (some) or absent (none); request.json[k] raises
KeyError when k is absent. -/
structure ReqBody where
  name : Option JStr
  description : Option JStr
deriving DecidableEq, Repr

/-- JSON values appearing in responses. -/
inductive JsonVal where
  | null : JsonVal
  | str (s : String) : JsonVal
  | num (n : Nat) : JsonVal
  | arr (elems : List JsonVal) : JsonVal
  | obj (fields : List (String × JsonVal)) : JsonVal
deriving Repr

/-- A response body: Flask serialises a returned str as text and a returned
dict as JSON. -/
inductive Body where
  | text (s : String) : Body
  | json (v : JsonVal) : Body
deriving Repr

/-- The outcome of one request. -/
inductive HResult where
  | ok (status : Nat) (body : Body) : HResult
  | notFound : HResult
  | serverError : HResult
deriving Repr

/-- Games.query.get(i): fetch by primary key. -/
def findGame (db : DB) (i : Nat) : Option Games :=
  db.find? (fun g => g.id == i)

/-- The largest id present in the table (0 when empty). -/
def maxId (db : DB) : Nat :=
  db.foldr (fun g m => max g.id m) 0

/-- The id SQLite assigns to the next inserted row: max rowid + 1. -/
def freshId (db : DB) : Nat := maxId db + 1

/-- How a stored (possibly NULL) description serialises to JSON. -/
def descJson : Option String → JsonVal
  | none => JsonVal.null
  | some s => JsonVal.str s

/-- The dict a handler builds from one row:
game_data of get_games, and the return value of get_game. -/
def gameJson (g : Games) : JsonVal :=
  JsonVal.obj [("name", JsonVal.str g.name), ("description", descJson g.description)]

/-- The stored value of a string-or-null JSON field. -/
def jstrToOpt : JStr → Option String
  | JStr.null => none
  | JStr.s v => some v

/-- A string-or-null body field, re-serialised to JSON. -/
def jstrJson : JStr → JsonVal
  | JStr.null => JsonVal.null
  | JStr.s v => JsonVal.str v

/-- Handler of GET /: def index of app.py. Returns the constant string. -/
def index (db : DB) : HResult × DB :=
  (HResult.ok 200 (Body.text "Hello World"), db)

/-- Handler of GET /games: def get_games of app.py.
Fetches all rows and returns a dict with the single key games, a list with
one name/description dict per row, in table order. -/
def get_games (db : DB) : HResult × DB :=
  (HResult.ok 200 (Body.json (JsonVal.obj [("games", JsonVal.arr (db.map gameJson))])), db)

/-- Handler of GET /games/<id>: def get_game of app.py.
get_or_404 aborts with 404 when the primary key is absent; otherwise the
handler returns the name/description dict of the row. -/
def get_game (db : DB) (i : Nat) : HResult × DB :=
  match findGame db i with
  | none => (HResult.notFound, db)
  | some g => (HResult.ok 200 (Body.json (gameJson g)), db)

/-- Handler of POST /games: def add_drink of app.py.
Reads request.json of name and of description unconditionally: a missing key
raises KeyError (serverError). A null name violates NOT NULL, and a name
equal to an existing row name violates UNIQUE: either way commit raises
IntegrityError (serverError) and nothing is inserted. Otherwise the row is
inserted with the fresh id and the handler returns the dict with key id. -/
def add_drink (db : DB) (body : ReqBody) : HResult × DB :=
  match body.name, body.description with
  | some nv, some dv =>
    match nv with
    | JStr.null => (HResult.serverError, db)
    | JStr.s n =>
      if db.any (fun g => g.name == n) then
        (HResult.serverError, db)
      else
        let g : Games := ⟨freshId db, n, jstrToOpt dv⟩
        (HResult.ok 200 (Body.json (JsonVal.obj [("id", JsonVal.num g.id)])), db ++ [g])
  | _, _ => (HResult.serverError, db)

/-- Handler of DELETE /games/<id>: def delete_game of app.py.
Games.query.get returns None when the key is absent: the handler then
returns the plain string (Flask status 200). Otherwise the row is deleted
and the handler returns the message dict. -/
def delete_game (db : DB) (i : Nat) : HResult × DB :=
  match findGame db i with
  | none => (HResult.ok 200 (Body.text "Error: game not found"), db)
  | some g =>
    (HResult.ok 200 (Body.json (JsonVal.obj [("message", JsonVal.str (g.name ++ " deleted"))])),
      db.filter (fun g2 => g2.id != i))

/-- No two rows of the table share a name: the UNIQUE constraint on the
name column of class Games. -/
def NamesUnique (db : DB) : Prop :=
  db.Pairwise (fun a b => a.name ≠ b.name)

/-- Every id in the table is at most maxId. -/
theorem mem_le_maxId (db : DB) (g : Games) (h : g ∈ db) : g.id ≤ maxId db := by
  induction db with
  | nil => cases h
  | cons a l ih =>
    unfold maxId
    simp only [List.foldr_cons]
    rcases List.mem_cons.mp h with h1 | h2
    · subst h1; exact le_max_left _ _
    · exact le_trans (ih h2) (le_max_right _ _)

/-- The fresh id is not yet a key of the table. -/
theorem findGame_fresh_none (db : DB) : findGame db (freshId db) = none := by
  apply List.find?_eq_none.mpr
  intro g hg
  have hle := mem_le_maxId db g hg
  simp only [beq_iff_eq]
  intro heq
  rw [heq] at hle
  exact absurd hle (by simp [freshId])

/-- Appending a row with a key absent from the table makes that key found,
yielding exactly the appended row. -/
theorem findGame_append_of_none (db : DB) (g : Games)
    (h : findGame db g.id = none) :
    findGame (db ++ [g]) g.id = some g := by
  induction db with
  | nil => simp [findGame, List.find?]
  | cons a l ih =>
    unfold findGame at *
    rw [List.cons_append]
    cases ha : (a.id == g.id) with
    | true =>
      rw [List.find?_cons_of_pos l ha] at h
      exact absurd h (by simp)
    | false =>
      rw [List.find?_cons_of_neg l (by simp [ha])] at h
      rw [List.find?_cons_of_neg (l ++ [g]) (by simp [ha])]
      exact ih h

/-- Storing a string-or-null field and serialising it back is the identity. -/
theorem descJson_jstrToOpt (d : JStr) : descJson (jstrToOpt d) = jstrJson d := by
  cases d <;> rfl

/-- What POST /games does on a well-formed body with a fresh name. -/
theorem add_drink_fresh (db : DB) (n : String) (d : JStr)
    (hfresh : db.any (fun g => g.name == n) = false) :
    add_drink db ⟨some (JStr.s n), some d⟩
      = (HResult.ok 200 (Body.json (JsonVal.obj [("id", JsonVal.num (freshId db))])),
         db ++ [⟨freshId db, n, jstrToOpt d⟩]) := by
  unfold add_drink
  simp [hfresh]

/-- Claim C1 counterexample: the request body that carries only the key
name (value a, not present in the empty table) makes POST /games raise
KeyError on the missing description key; the handler returns a server
error, no id, and inserts nothing — refuting the claim as universally
stated over every body with a fresh name. -/
theorem c1_counterexample :
    (([] : DB).any (fun g => g.name == "a") = false) ∧
    add_drink [] ⟨some (JStr.s "a"), none⟩ = (HResult.serverError, ([] : DB)) :=
  ⟨rfl, rfl⟩

/-- Claim C1 (amended): for every request body carrying both the name and
the description keys, whose name is a string not already present in the
games table, POST /games inserts a row and returns a response containing an
integer id, and a subsequent GET /games/<id> with that id returns exactly
the name and description that were posted. -/
theorem c1_create_read_roundtrip (db : DB) (n : String) (d : JStr)
    (hfresh : db.any (fun g => g.name == n) = false) :
    ∃ i : Nat,
      (add_drink db ⟨some (JStr.s n), some d⟩).1
        = HResult.ok 200 (Body.json (JsonVal.obj [("id", JsonVal.num i)])) ∧
      (get_game (add_drink db ⟨some (JStr.s n), some d⟩).2 i).1
        = HResult.ok 200 (Body.json (JsonVal.obj
            [("name", JsonVal.str n), ("description", jstrJson d)])) := by
  refine ⟨freshId db, ?_, ?_⟩
  · rw [add_drink_fresh db n d hfresh]
  · rw [add_drink_fresh db n d hfresh]
    have hfind : findGame (db ++ [(⟨freshId db, n, jstrToOpt d⟩ : Games)]) (freshId db)
        = some ⟨freshId db, n, jstrToOpt d⟩ :=
      findGame_append_of_none db ⟨freshId db, n, jstrToOpt d⟩ (findGame_fresh_none db)
    simp only [get_game, hfind, gameJson, descJson_jstrToOpt]

/-- Claim C1 witness: the round trip at the empty table with name b and
description fun. -/
theorem c1_roundtrip_witness :
    (([] : DB).any (fun g => g.name == "b") = false) ∧
    (∃ i : Nat,
      (add_drink [] ⟨some (JStr.s "b"), some (JStr.s "fun")⟩).1
        = HResult.ok 200 (Body.json (JsonVal.obj [("id", JsonVal.num i)])) ∧
      (get_game (add_drink [] ⟨some (JStr.s "b"), some (JStr.s "fun")⟩).2 i).1
        = HResult.ok 200 (Body.json (JsonVal.obj
            [("name", JsonVal.str "b"), ("description", jstrJson (JStr.s "fun"))]))) :=
  ⟨rfl, c1_create_read_roundtrip [] "b" (JStr.s "fun") rfl⟩

/-- Claim C2: for every id that does not identify a row, DELETE /games/<id>
returns the plain string body Error: game not found with HTTP status 200 and
leaves the table unchanged; it does not return a 404 or a structured error. -/
theorem c2_delete_missing (db : DB) (i : Nat) (h : findGame db i = none) :
    delete_game db i = (HResult.ok 200 (Body.text "Error: game not found"), db) := by
  unfold delete_game
  rw [h]

/-- Claim C2 witness: deleting id 2 from a table holding only id 1. -/
theorem c2_delete_missing_witness :
    findGame [(⟨1, "a", none⟩ : Games)] 2 = none ∧
    delete_game [(⟨1, "a", none⟩ : Games)] 2
      = (HResult.ok 200 (Body.text "Error: game not found"), [(⟨1, "a", none⟩ : Games)]) :=
  ⟨rfl, c2_delete_missing [⟨1, "a", none⟩] 2 rfl⟩

/-- Claim C3: GET /games/<id> aborts with HTTP 404 exactly when no row with
that primary key exists, and otherwise returns a mapping with exactly the
keys name and description of that row. -/
theorem c3_get_by_id (db : DB) (i : Nat) :
    ((get_game db i).1 = HResult.notFound ↔ findGame db i = none) ∧
    (∀ g : Games, findGame db i = some g →
      (get_game db i).1 = HResult.ok 200 (Body.json (JsonVal.obj
        [("name", JsonVal.str g.name), ("description", descJson g.description)]))) := by
  cases hf : findGame db i with
  | none =>
    refine ⟨⟨fun _ => rfl, fun _ => ?_⟩, fun g hg => ?_⟩
    · simp [get_game, hf]
    · cases hg
  | some g0 =>
    refine ⟨⟨fun h => ?_, fun h => ?_⟩, fun g hg => ?_⟩
    · simp [get_game, hf] at h
    · cases h
    · injection hg with hgg
      subst hgg
      simp [get_game, hf, gameJson]

/-- Claim C3 witness: on a one-row table, GET of the present id returns the
row dict and GET of an absent id aborts with 404. -/
theorem c3_get_by_id_witness :
    (get_game [(⟨1, "a", some "d"⟩ : Games)] 1).1
      = HResult.ok 200 (Body.json (JsonVal.obj
        [("name", JsonVal.str "a"), ("description", descJson (some "d"))])) ∧
    (get_game [(⟨1, "a", some "d"⟩ : Games)] 2).1 = HResult.notFound :=
  ⟨(c3_get_by_id [⟨1, "a", some "d"⟩] 1).2 ⟨1, "a", some "d"⟩ rfl,
   (c3_get_by_id [⟨1, "a", some "d"⟩] 2).1.mpr rfl⟩

/-- Claim C4: DELETE /games/<id> on an existing row returns the message dict
naming the deleted row, removes exactly that row (every other row survives),
and a subsequent GET for that id aborts with 404. -/
theorem c4_delete_existing (db : DB) (i : Nat) (g : Games)
    (h : findGame db i = some g) :
    (delete_game db i).1 = HResult.ok 200 (Body.json (JsonVal.obj
        [("message", JsonVal.str (g.name ++ " deleted"))])) ∧
    g ∉ (delete_game db i).2 ∧
    (∀ g2 ∈ db, g2.id ≠ i → g2 ∈ (delete_game db i).2) ∧
    (get_game (delete_game db i).2 i).1 = HResult.notFound := by
  have hstep : delete_game db i
      = (HResult.ok 200 (Body.json (JsonVal.obj
          [("message", JsonVal.str (g.name ++ " deleted"))])),
         db.filter (fun g2 => g2.id != i)) := by
    unfold delete_game
    rw [h]
  unfold findGame at h
  have hpe : g.id = i := by
    have hp := List.find?_some h
    exact beq_iff_eq.mp hp
  have hnone : findGame (db.filter (fun g2 => g2.id != i)) i = none := by
    apply List.find?_eq_none.mpr
    intro x hx
    have hxp := (List.mem_filter.mp hx).2
    simp only [bne_iff_ne, ne_eq] at hxp
    simp [hxp]
  refine ⟨by rw [hstep], ?_, ?_, ?_⟩
  · rw [hstep]
    intro hmem
    have := (List.mem_filter.mp hmem).2
    simp [hpe] at this
  · intro g2 hg2 hne
    rw [hstep]
    exact List.mem_filter.mpr ⟨hg2, by simpa using hne⟩
  · rw [hstep]
    simp [get_game, hnone]

/-- Claim C4 witness: deleting id 1 from a two-row table. -/
theorem c4_delete_existing_witness :
    (delete_game [(⟨1, "a", none⟩ : Games), ⟨2, "b", some "d"⟩] 1).1
      = HResult.ok 200 (Body.json (JsonVal.obj
          [("message", JsonVal.str ("a" ++ " deleted"))])) ∧
    (⟨1, "a", none⟩ : Games) ∉ (delete_game [(⟨1, "a", none⟩ : Games), ⟨2, "b", some "d"⟩] 1).2 ∧
    (∀ g2 ∈ [(⟨1, "a", none⟩ : Games), ⟨2, "b", some "d"⟩], g2.id ≠ 1 →
      g2 ∈ (delete_game [(⟨1, "a", none⟩ : Games), ⟨2, "b", some "d"⟩] 1).2) ∧
    (get_game (delete_game [(⟨1, "a", none⟩ : Games), ⟨2, "b", some "d"⟩] 1).2 1).1
      = HResult.notFound :=
  c4_delete_existing [⟨1, "a", none⟩, ⟨2, "b", some "d"⟩] 1 ⟨1, "a", none⟩ rfl

/-- Claim C6: a request body without the key name makes POST /games raise an
unhandled KeyError (a generic server error) and insert nothing. -/
theorem c6_post_missing_name (db : DB) (body : ReqBody) (h : body.name = none) :
    add_drink db body = (HResult.serverError, db) := by
  obtain ⟨bn, bd⟩ := body
  have h2 : bn = none := h
  subst h2
  cases bd <;> rfl

/-- Claim C6 witness: a body carrying only a description, on a one-row table. -/
theorem c6_post_missing_name_witness :
    add_drink [(⟨1, "a", none⟩ : Games)] ⟨none, some (JStr.s "d")⟩
      = (HResult.serverError, [(⟨1, "a", none⟩ : Games)]) :=
  c6_post_missing_name [⟨1, "a", none⟩] ⟨none, some (JStr.s "d")⟩ rfl

/-- Claim C9: a request body without the key description makes POST /games
raise an unhandled KeyError and insert nothing, although the column is
nullable: the handler reads both keys unconditionally. -/
theorem c9_post_missing_description (db : DB) (body : ReqBody)
    (h : body.description = none) :
    add_drink db body = (HResult.serverError, db) := by
  obtain ⟨bn, bd⟩ := body
  have h2 : bd = none := h
  subst h2
  cases bn <;> rfl

/-- Claim C9 witness: a body carrying only a fresh name, on a one-row table. -/
theorem c9_post_missing_description_witness :
    add_drink [(⟨1, "a", none⟩ : Games)] ⟨some (JStr.s "b"), none⟩
      = (HResult.serverError, [(⟨1, "a", none⟩ : Games)]) :=
  c9_post_missing_description [⟨1, "a", none⟩] ⟨some (JStr.s "b"), none⟩ rfl

/-- Claim C8: GET / returns the constant text Hello World with status 200 and
leaves every table state unchanged. -/
theorem c8_index_constant (db : DB) :
    index db = (HResult.ok 200 (Body.text "Hello World"), db) := rfl

/-- Claim C10: the three read handlers leave the games table unchanged for
every starting state, including when GET /games/<id> aborts with 404. -/
theorem c10_reads_leave_state (db : DB) (i : Nat) :
    (index db).2 = db ∧ (get_games db).2 = db ∧ (get_game db i).2 = db := by
  refine ⟨rfl, rfl, ?_⟩
  unfold get_game
  cases hf : findGame db i <;> rfl

/-- Claim C7: GET /games returns a dict with the single key games holding a
list with exactly one element per stored row, each element a dict with
exactly the keys name and description (no id), and the table unchanged. -/
theorem c7_list_games (db : DB) :
    get_games db = (HResult.ok 200 (Body.json (JsonVal.obj
        [("games", JsonVal.arr (db.map gameJson))])), db) ∧
    (db.map gameJson).length = db.length ∧
    (∀ v ∈ db.map gameJson, ∃ nm dv : JsonVal,
      v = JsonVal.obj [("name", nm), ("description", dv)]) := by
  refine ⟨rfl, by simp, ?_⟩
  intro v hv
  rcases List.mem_map.mp hv with ⟨g, hg, hvg⟩
  exact ⟨JsonVal.str g.name, descJson g.description, hvg.symm⟩

/-- Claim C7 witness: the element produced for a concrete row has exactly
the keys name and description. -/
theorem c7_list_games_witness :
    ∃ nm dv : JsonVal, gameJson ⟨1, "a", none⟩
      = JsonVal.obj [("name", nm), ("description", dv)] :=
  (c7_list_games [⟨1, "a", none⟩]).2.2 (gameJson ⟨1, "a", none⟩) (by simp)

/-- Claim C5: POST of a name already stored fails with a server error (the
UNIQUE constraint raises IntegrityError at commit) and inserts nothing, and
every handler preserves the no-two-rows-share-a-name invariant, so it holds
in every reachable state. -/
theorem c5_name_unique_invariant (db : DB) (body : ReqBody) (i : Nat) :
    (∀ n : String, body.name = some (JStr.s n) →
      db.any (fun g => g.name == n) = true →
      add_drink db body = (HResult.serverError, db)) ∧
    (NamesUnique db →
      NamesUnique (index db).2 ∧ NamesUnique (get_games db).2 ∧
      NamesUnique (get_game db i).2 ∧ NamesUnique (add_drink db body).2 ∧
      NamesUnique (delete_game db i).2) := by
  constructor
  · intro n hn hdup
    obtain ⟨bn, bd⟩ := body
    have h2 : bn = some (JStr.s n) := hn
    subst h2
    cases bd with
    | none => rfl
    | some dv =>
      unfold add_drink
      simp [hdup]
  · intro hU
    refine ⟨hU, hU, ?_, ?_, ?_⟩
    · unfold get_game
      cases hf : findGame db i <;> exact hU
    · obtain ⟨bn, bd⟩ := body
      cases bn with
      | none => exact hU
      | some nv =>
        cases bd with
        | none => exact hU
        | some dv =>
          cases nv with
          | null => exact hU
          | s n =>
            cases hdup : db.any (fun g => g.name == n) with
            | true =>
              have hs : add_drink db ⟨some (JStr.s n), some dv⟩
                  = (HResult.serverError, db) := by
                unfold add_drink
                simp [hdup]
              rw [hs]
              exact hU
            | false =>
              rw [add_drink_fresh db n dv hdup]
              have hall := List.any_eq_false.mp hdup
              unfold NamesUnique at hU ⊢
              rw [List.pairwise_append]
              refine ⟨hU, by simp, ?_⟩
              intro a ha b hb
              rw [List.mem_singleton] at hb
              subst hb
              have ha2 := hall a ha
              simp only [beq_iff_eq] at ha2
              exact ha2
    · unfold delete_game
      cases hf : findGame db i with
      | none => exact hU
      | some g =>
        exact List.Pairwise.sublist (List.filter_sublist db) hU

/-- Claim C5 witness: the duplicate POST of name a fails and leaves the
one-row table unchanged, and deleting from that table keeps names unique. -/
theorem c5_name_unique_invariant_witness :
    add_drink [(⟨1, "a", none⟩ : Games)] ⟨some (JStr.s "a"), some JStr.null⟩
      = (HResult.serverError, [(⟨1, "a", none⟩ : Games)]) ∧
    NamesUnique (delete_game [(⟨1, "a", none⟩ : Games)] 1).2 :=
  ⟨(c5_name_unique_invariant [⟨1, "a", none⟩] ⟨some (JStr.s "a"), some JStr.null⟩ 1).1
      "a" rfl (by decide),
   ((c5_name_unique_invariant [⟨1, "a", none⟩] ⟨some (JStr.s "a"), some JStr.null⟩ 1).2
      (by simp [NamesUnique])).2.2.2.2⟩

end SimpleAPI
